import Mathlib

/-!
Verification of the stralgo string-similarity library.

The Go sources are shallowly embedded as follows:
- a byte sequence or a rune sequence is a `List Nat` (a byte is a value
  below 256, a rune a Unicode code point; both are compared by value only,
  exactly as the Go code does);
- a Go `(T, error)` return is `Except String T`, carrying the exact error
  message strings of the source;
- a Go run that panics (index out of range) is modelled by `Option`,
  with `none` for the panic;
- `float64` arithmetic on the small integer quantities of these metrics is
  modelled by exact rational arithmetic over `ℚ`.

Every definition is translated from the corresponding Go function and keeps
its source name, under a namespace named after the source package
(`stralgo`, `bytewise`, `runewise`).  Definitions whose doc comment starts
with the words Modelled from the spec are the exception: they restate a
formula of the specification for comparison with the code.
-/

/-- Decidable equality for `Except`, needed to evaluate the embedded
functions on concrete inputs with `decide`. -/
instance exceptDecEq {ε α : Type} [DecidableEq ε] [DecidableEq α] :
    DecidableEq (Except ε α) := fun x y =>
  match x, y with
  | .ok a, .ok b =>
    if h : a = b then .isTrue (by rw [h]) else
      .isFalse (fun hh => h (by cases hh; rfl))
  | .error a, .error b =>
    if h : a = b then .isTrue (by rw [h]) else
      .isFalse (fun hh => h (by cases hh; rfl))
  | .ok _, .error _ => .isFalse (fun hh => Except.noConfusion hh)
  | .error _, .ok _ => .isFalse (fun hh => Except.noConfusion hh)

/-- The three-way minimum helper `min(a, b, c int) int` shared by the Go
sources (bytewise.go, runewise.go): `m := a; if b < m, m = b; if c < m,
return c; return m`. -/
def min3 (a b c : Int) : Int :=
  let m := if b < a then b else a
  if c < m then c else m

/-- Count of positions at which two equal-length sequences hold different
units: the accumulation loop shared by every HammingDistance variant. -/
def countDiffs : List Nat → List Nat → Nat
  | x :: xs, y :: ys => (if x = y then 0 else 1) + countDiffs xs ys
  | _, _ => 0

namespace stralgo

/-- Error message of HammingDistance (stralgo.go). -/
def hammingLengthMsg : String :=
  "Hamming distance is undefined between strings of unequal length."

/-- HammingDistance (stralgo.go): errors on unequal lengths, otherwise
counts the indices whose bytes differ. -/
def HammingDistance (a b : List Nat) : Except String Nat :=
  if a.length ≠ b.length then .error hammingLengthMsg
  else .ok (countDiffs a b)

/-- Error message of LeeDistance for an alphabet size below 2 (stralgo.go). -/
def leeAlphabetMsg : String :=
  "Lee distance must have a q-ary alphabet size greater than or equal to 2."

/-- Error message of LeeDistance for unequal lengths (stralgo.go). -/
def leeLengthMsg : String :=
  "Lee distance is undefined between strings of unequal length."

/-- The accumulation loop of LeeDistance (stralgo.go): for each index,
`diff := int(a[i]) - int(b[i])`, negated if negative, then add `diff` if
`diff < q - diff` and `q - diff` otherwise. -/
def leeSum (q : Int) : List Nat → List Nat → Int
  | x :: xs, y :: ys =>
    let diff0 : Int := (x : Int) - (y : Int)
    let diff := if diff0 < 0 then -diff0 else diff0
    let qDiff := q - diff
    (if diff < qDiff then diff else qDiff) + leeSum q xs ys
  | _, _ => 0

/-- LeeDistance (stralgo.go): checks `q < 2` first, then the lengths, then
accumulates the per-index circular distances. -/
def LeeDistance (a b : List Nat) (q : Int) : Except String Int :=
  if q < 2 then .error leeAlphabetMsg
  else if a.length ≠ b.length then .error leeLengthMsg
  else .ok (leeSum q a b)

end stralgo

/-- Adjacent-unit bigrams of a sequence, in order: the `a[i:i+2]` (or
`{rA: a[i], rB: a[i+1]}`) values scanned by the DiceCoefficient loops. -/
def adjacentPairs : List Nat → List (Nat × Nat)
  | x :: y :: rest => (x, y) :: adjacentPairs (y :: rest)
  | _ => []

/-- First-occurrence accumulation of distinct bigrams, as performed by the
`aSet`/`bSet` map loops of DiceCoefficient. -/
def distinctBigrams : List (Nat × Nat) → List (Nat × Nat) → List (Nat × Nat)
  | [], seen => seen.reverse
  | p :: ps, seen =>
    if p ∈ seen then distinctBigrams ps seen else distinctBigrams ps (p :: seen)

namespace bytewise

/-- HammingDistance (bytewise.go): identical logic to the stralgo form. -/
def HammingDistance (a b : List Nat) : Except String Nat :=
  if a.length ≠ b.length then .error stralgo.hammingLengthMsg
  else .ok (countDiffs a b)

/-- Error message of DiceCoefficient (bytewise.go). -/
def diceLengthMsg : String :=
  "At least one of the input strings must have a length of 2 or greater for the bigram-based DiceCoefficient to be calculated."

/-- DiceCoefficient (bytewise.go): errors when both `len - 1` limits are
below 1; otherwise `2 * sharedBigrams / totalBigrams` over the distinct
bigram sets of the two inputs. -/
def DiceCoefficient (a b : List Nat) : Except String ℚ :=
  if (a.length : Int) - 1 < 1 ∧ (b.length : Int) - 1 < 1 then
    .error diceLengthMsg
  else
    let aSet := distinctBigrams (adjacentPairs a) []
    let bSet := distinctBigrams (adjacentPairs b) []
    let total := aSet.length + bSet.length
    let shared := (bSet.filter (fun p => decide (p ∈ aSet))).length
    .ok (2 * (shared : ℚ) / (total : ℚ))

end bytewise

namespace runewise

/-- Error message of DiceCoefficient (runewise.go). -/
def diceLengthMsg : String :=
  "At least one of the input strings must contain 2 or more runes for the bigram-based DiceCoefficient to be calculated."

/-- DiceCoefficient (runewise.go): same algorithm as the bytewise form,
over runes. -/
def DiceCoefficient (a b : List Nat) : Except String ℚ :=
  if (a.length : Int) - 1 < 1 ∧ (b.length : Int) - 1 < 1 then
    .error diceLengthMsg
  else
    let aSet := distinctBigrams (adjacentPairs a) []
    let bSet := distinctBigrams (adjacentPairs b) []
    let total := aSet.length + bSet.length
    let shared := (bSet.filter (fun p => decide (p ∈ aSet))).length
    .ok (2 * (shared : ℚ) / (total : ℚ))

end runewise

/-- Model of the external primitive `unicode.IsSpace` (the spec treats
codepoint classification as a provided primitive): the Unicode White_Space
code points as recognized by Go. -/
def goIsSpace (r : Nat) : Bool :=
  decide ((9 ≤ r ∧ r ≤ 13) ∨ r = 32 ∨ r = 133 ∨ r = 160 ∨ r = 5760 ∨
    (8192 ≤ r ∧ r ≤ 8202) ∨ r = 8232 ∨ r = 8233 ∨ r = 8239 ∨ r = 8287 ∨
    r = 12288)

/-- Model of the external primitive `unicode.ToUpper` (a provided
primitive per the spec), restricted to the simple ASCII mapping, which
covers every code point exercised by the verified statements; it is
idempotent and preserves the whitespace classification, as the full
Unicode mapping does. -/
def goToUpper (r : Nat) : Nat :=
  if 97 ≤ r ∧ r ≤ 122 then r - 32 else r

namespace runewise

/-- upperWordLetterPairs (runewise.go): scans adjacent rune pairs, skipping
two positions past a whitespace second unit, one position past a whitespace
first unit, and otherwise emitting the upper-cased pair. -/
def upperWordLetterPairs : List Nat → List (Nat × Nat)
  | x :: y :: rest =>
    if goIsSpace y then upperWordLetterPairs rest
    else if goIsSpace x then upperWordLetterPairs (y :: rest)
    else (goToUpper x, goToUpper y) :: upperWordLetterPairs (y :: rest)
  | _ => []

end runewise

namespace bytewise

/-- asciiUpperOrSpace (bytewise.go): for a byte at most MaxASCII, lower-case
letters are shifted to upper case and the listed control bytes flagged as
whitespace (the 0x85 and 0xA0 cases sit inside the MaxASCII branch exactly
as in the source and are therefore unreachable); every other byte is
returned unchanged and unflagged. -/
def asciiUpperOrSpace (x : Nat) : Nat × Bool :=
  if x ≤ 127 then
    if 97 ≤ x ∧ x ≤ 122 then (x - 32, false)
    else if x = 9 ∨ x = 10 ∨ x = 11 ∨ x = 12 ∨ x = 13 ∨ x = 32 ∨ x = 133 ∨ x = 160 then
      (x, true)
    else (x, false)
  else (x, false)

/-- asciiUpperWordLetterPairs (bytewise.go): the bytewise analogue of
upperWordLetterPairs, driven by asciiUpperOrSpace. -/
def asciiUpperWordLetterPairs : List Nat → List (Nat × Nat)
  | x :: y :: rest =>
    let pb := asciiUpperOrSpace y
    if pb.2 then asciiUpperWordLetterPairs rest
    else
      let pa := asciiUpperOrSpace x
      if pa.2 then asciiUpperWordLetterPairs (y :: rest)
      else (pa.1, pb.1) :: asciiUpperWordLetterPairs (y :: rest)
  | _ => []

end bytewise

/-- The inner scan of the WhiteSimilarity matching loops: find the first
slot of the b-list equal to the given bigram; on a hit the slot is
overwritten with the zero bigram (the Go sentinel `byteBigram{}` or
`runeBigram{}`) and the updated list returned. -/
def consumeFirst (x : Nat × Nat) : List (Nat × Nat) → Option (List (Nat × Nat))
  | [] => none
  | y :: ys =>
    if y = x then some ((0, 0) :: ys)
    else (consumeFirst x ys).map (fun zs => y :: zs)

/-- The outer matching loop of WhiteSimilarity: for each bigram of the
a-list in order, scan the current b-list; a hit increments the
intersection and consumes that slot. -/
def greedyIntersectionCount : List (Nat × Nat) → List (Nat × Nat) → Nat
  | [], _ => 0
  | x :: xs, bs =>
    match consumeFirst x bs with
    | some bs2 => greedyIntersectionCount xs bs2 + 1
    | none => greedyIntersectionCount xs bs

namespace runewise

/-- Error message of WhiteSimilarity (runewise.go). -/
def whiteContentMsg : String :=
  "At least one of the input strings must contain two or more non-whitespace rune bigrams in order to calculate the White Similarity."

/-- WhiteSimilarity (runewise.go, the rune-slice form): filtered upper-cased
bigram lists, greedy consumable matching, result
`2 * intersection / (lenA + lenB)`. -/
def WhiteSimilarity (a b : List Nat) : Except String ℚ :=
  let aPairs := upperWordLetterPairs a
  let bPairs := upperWordLetterPairs b
  let union := aPairs.length + bPairs.length
  if union = 0 then .error whiteContentMsg
  else .ok (2 * (greedyIntersectionCount aPairs bPairs : ℚ) / (union : ℚ))

end runewise

namespace bytewise

/-- Error message of WhiteSimilarity (bytewise.go). -/
def whiteContentMsg : String :=
  "At least one of the input strings must contain two or more non-whitespace byte bigrams in order to calculate the White Similarity"

/-- WhiteSimilarity (bytewise.go): as the runewise form, over the
asciiUpperWordLetterPairs lists. -/
def WhiteSimilarity (a b : List Nat) : Except String ℚ :=
  let aPairs := asciiUpperWordLetterPairs a
  let bPairs := asciiUpperWordLetterPairs b
  let union := aPairs.length + bPairs.length
  if union = 0 then .error whiteContentMsg
  else .ok (2 * (greedyIntersectionCount aPairs bPairs : ℚ) / (union : ℚ))

end bytewise

/-- One step of the two-row Levenshtein recurrence with a per-column cost
list: given the entry to the left, the tail of the previous row aligned at
the current column, and the remaining costs, produce the rest of the
current row. -/
def levNextRow : Int → List Int → List Int → List Int
  | left, p0 :: p1 :: ps, c :: cs =>
    let e := min3 (left + 1) (p1 + 1) (p0 + c)
    e :: levNextRow e (p1 :: ps) cs
  | _, _, _ => []

namespace runewise

/-- The outer row loop of LevenshteinDistance (runewise.go): row `i + 1`
starts with `i + 1` and continues by the recurrence with costs
`cost = 0` iff `a[i] == b[j]`. -/
def levLoop (b : List Nat) : List Nat → Nat → List Int → List Int
  | [], _, prev => prev
  | ai :: arest, i, prev =>
    let costs := b.map (fun bj => if ai = bj then (0 : Int) else 1)
    levLoop b arest (i + 1) (((i : Int) + 1) :: levNextRow ((i : Int) + 1) prev costs)

/-- LevenshteinDistance (runewise.go, the rune-slice form): empty-side
shortcuts, then the two-row dynamic program comparing `a[i]` with `b[j]`. -/
def LevenshteinDistance (a b : List Nat) : Int :=
  if a.length = 0 then b.length
  else if b.length = 0 then a.length
  else
    let prev0 : List Int := (List.range (b.length + 1)).map (fun h => (h : Int))
    (levLoop b a 0 prev0).getD b.length 0

end runewise

namespace bytewise

/-- The inner column loop of LevenshteinDistance (bytewise.go): the source
compares `a[i] == b[i]`, so the cost is the same for every column of a
row. -/
def levRowConst (c : Int) : Int → List Int → List Int
  | left, p0 :: p1 :: ps =>
    let e := min3 (left + 1) (p1 + 1) (p0 + c)
    e :: levRowConst c e (p1 :: ps)
  | _, _ => []

/-- The outer row loop of LevenshteinDistance (bytewise.go): the cost of
row `i` reads `b[i]`, which panics (`none`) once `i` reaches the length of
`b`. -/
def levLoop (b : List Nat) : List Nat → Nat → List Int → Option (List Int)
  | [], _, prev => some prev
  | ai :: arest, i, prev =>
    match b.get? i with
    | none => none
    | some bi =>
      let c : Int := if ai = bi then 0 else 1
      levLoop b arest (i + 1) (((i : Int) + 1) :: levRowConst c ((i : Int) + 1) prev)

/-- LevenshteinDistance (bytewise.go): empty-side shortcuts, an
equal-string shortcut, then the two-row dynamic program whose cost
erroneously compares `a[i]` with `b[i]`. -/
def LevenshteinDistance (a b : List Nat) : Option Int :=
  if a.length = 0 then some b.length
  else if b.length = 0 then some a.length
  else if a.length = b.length ∧ a = b then some 0
  else
    let prev0 : List Int := (List.range (b.length + 1)).map (fun h => (h : Int))
    (levLoop b a 0 prev0).bind (fun pr => pr.get? b.length)

end bytewise

/-- Modelled from the spec: the classic Levenshtein dynamic program,
`dp[i][j]` = edits to transform the first `i` units of `a` into the first
`j` units of `b`, with recurrence
`dp[i][j] = min(dp[i-1][j]+1, dp[i][j-1]+1, dp[i-1][j-1]+cost)` and
`cost = 0` iff the units at positions `i` and `j` are equal.  The fuel
argument only makes the recursion structural; `i + j` calls always
suffice. -/
def levDP (a b : List Nat) : Nat → Nat → Nat → Nat
  | 0, _, _ => 0
  | _ + 1, 0, j => j
  | _ + 1, i + 1, 0 => i + 1
  | f + 1, i + 1, j + 1 =>
    let cost := if a.getD i 0 = b.getD j 0 then 0 else 1
    min (levDP a b f i (j + 1) + 1)
      (min (levDP a b f (i + 1) j + 1) (levDP a b f i j + cost))

/-- Modelled from the spec: the value of the classic Levenshtein dynamic
program on the whole of the two sequences. -/
def levSpec (a b : List Nat) : Nat :=
  levDP a b (a.length + b.length + 1) a.length b.length

/-- The inner column loop of DamerauLevenshteinDistance (both sources):
walks the shorter sequence with `j` from 1, carrying the entry to the left
and the previous unit of `a`; reads `prevRow[j]`, `prevRow[j-1]` and, when
the transposition guard `currA == prevB && currB == prevA` fires,
`tranRow[j-2]`, which for `j = 1` is the out-of-range read `tranRow[-1]`
(`none`). -/
def dlRowGo (tran prev : List Int) (currB prevB : Nat) :
    List Nat → Nat → Nat → Int → List Int → Option (List Int)
  | [], _, _, _, acc => some acc.reverse
  | currA :: rest, j, prevA, left, acc => do
    let cost : Int := if currA = currB then 0 else 1
    let p1 ← prev.get? j
    let p0 ← prev.get? (j - 1)
    let entry0 := min3 (left + 1) (p1 + 1) (p0 + cost)
    let entry ←
      if currA = prevB ∧ currB = prevA then
        match (if 2 ≤ j then tran.get? (j - 2) else none) with
        | none => none
        | some t => some (if t + cost < entry0 then t + cost else entry0)
      else some entry0
    dlRowGo tran prev currB prevB rest (j + 1) currA entry (entry :: acc)

/-- The outer row loop of DamerauLevenshteinDistance (both sources): for
each unit of the longer sequence, build the current row (its column 0
holds `i`), then rotate the three rows.  The banded clamps of the source,
`start = max(1, i - len(b) - 1)` and `end = min(i + len(b) + 1, len(a))`,
always evaluate to 1 and `len(a)` (for `1 ≤ i ≤ len(b)` and
`len(a) ≤ len(b)`, `i - len(b) - 1 ≤ 0` and `i + len(b) + 1 > len(a)`), so
every row is scanned in full. -/
def dlOuter (a : List Nat) : List Nat → Nat → Nat → List Int → List Int →
    Option (List Int)
  | [], _, _, _, prev => some prev
  | currB :: brest, i, prevB, tran, prev => do
    let curr ← dlRowGo tran prev currB prevB a 1 0 (i : Int) [(i : Int)]
    dlOuter a brest (i + 1) currB prev curr

/-- DamerauLevenshteinDistance (bytewise.go and runewise.go share this
algorithm verbatim): empty-side shortcuts, swap so that the first sequence
is not longer, three rows of length `len(a) + 1` (the transposition row
and the scratch row start zeroed, the previous row starts as `0..len(a)`),
then the row loop; the result is the last entry of the final row. -/
def damerauCore (a0 b0 : List Nat) : Option Int :=
  if a0.length = 0 then some b0.length
  else if b0.length = 0 then some a0.length
  else
    let p := if a0.length > b0.length then (b0, a0) else (a0, b0)
    let a := p.1
    let b := p.2
    let tran0 : List Int := List.replicate (a.length + 1) 0
    let prev0 : List Int := (List.range (a.length + 1)).map (fun h => (h : Int))
    (dlOuter a b 1 0 tran0 prev0).bind (fun pr => pr.get? a.length)

namespace runewise

/-- DamerauLevenshteinDistance (runewise.go). -/
def DamerauLevenshteinDistance (a b : List Nat) : Option Int :=
  damerauCore a b

end runewise

namespace bytewise

/-- DamerauLevenshteinDistance (bytewise.go): byte-for-byte the same
algorithm as the runewise form. -/
def DamerauLevenshteinDistance (a b : List Nat) : Option Int :=
  damerauCore a b

end bytewise

namespace runewise

/-- The window scan of jaroMatchesAndHalfTranspositions: starting at index
`j` and running for `cnt` positions, report whether any unit of `b` in the
window equals the current unit of `a`, and append every matching index not
yet marked to the marked list (the source adds them to a map; only the
multiset of marked indices matters after the later sort). -/
def scanWindow (b : List Nat) (aRune : Nat) : Nat → Nat → List Nat →
    List Nat × Bool
  | 0, _, marked => (marked, false)
  | cnt + 1, j, marked =>
    let hit := b.getD j 0 = aRune
    let marked1 := if hit ∧ j ∉ marked then marked ++ [j] else marked
    let r := scanWindow b aRune cnt (j + 1) marked1
    (r.1, hit || r.2)

/-- The first phase of jaroMatchesAndHalfTranspositions: for each unit of
the longer sequence at index `i`, scan the window
`[i - matchMax, min(i + matchMax, len(b) - 1)]` of the shorter sequence;
a unit with at least one hit is appended to the common list, and the hit
indices are marked. -/
def jaroPhase1 (b : List Nat) (matchMax bLen : Nat) :
    List Nat → Nat → List Nat → List Nat → List Nat × List Nat
  | [], _, commonRev, marked => (commonRev.reverse, marked)
  | aRune :: rest, i, commonRev, marked =>
    let fromJ := i - matchMax
    let toJ := Nat.min (i + matchMax) (bLen - 1)
    let cnt := toJ + 1 - fromJ
    let r := scanWindow b aRune cnt fromJ marked
    jaroPhase1 b matchMax bLen rest (i + 1)
      (if r.2 then aRune :: commonRev else commonRev) r.1

/-- Ascending insertion into a sorted list (used to model `sort.Ints`). -/
def insertSorted (x : Nat) : List Nat → List Nat
  | [] => [x]
  | y :: ys => if x ≤ y then x :: y :: ys else y :: insertSorted x ys

/-- Ascending sort of a list of indices, modelling `sort.Ints`. -/
def sortNat : List Nat → List Nat
  | [] => []
  | x :: xs => insertSorted x (sortNat xs)

/-- jaroMatchesAndHalfTranspositions (the runewise Jaro source): empty
inputs give `(0, 0)`; otherwise swap so the first sequence is not shorter,
run the window scan, then fill the `bIndices` array of length
`numAMatched` from the marked-index map - a fill that panics (`none`) when
more indices were marked than units matched - sort it (unfilled slots stay
0), and count the aligned mismatches as half-transpositions. -/
def jaroMatchesAndHalfTranspositions (a0 b0 : List Nat) :
    Option (Nat × Nat) :=
  if a0.length = 0 ∨ b0.length = 0 then some (0, 0)
  else
    let p := if a0.length < b0.length then (b0, a0) else (a0, b0)
    let a := p.1
    let b := p.2
    let matchMax := a.length / 2 - 1
    let st := jaroPhase1 b matchMax b.length a 0 [] []
    let aCommon := st.1
    let marked := st.2
    let num := aCommon.length
    if num < marked.length then none
    else
      let bIndices := sortNat (marked ++ List.replicate (num - marked.length) 0)
      let t := ((aCommon.zip bIndices).filter
        (fun pr => decide (pr.1 ≠ b.getD pr.2 0))).length
      some (num, t)

/-- JaroSimilarity (the runewise Jaro source): zero matches give 0,
otherwise the classic three-term average; the half-transposition count is
halved with integer division before entering the formula. -/
def JaroSimilarity (a b : List Nat) : Option ℚ :=
  (jaroMatchesAndHalfTranspositions a b).map (fun mt =>
    if mt.1 = 0 then 0
    else
      let m : ℚ := (mt.1 : ℚ)
      (1 / 3) * (m / (a.length : ℚ) + m / (b.length : ℚ) +
        (m - ((mt.2 / 2 : Nat) : ℚ)) / m))

/-- WinklerBoostThreshold (the runewise Jaro source). -/
def WinklerBoostThreshold : ℚ := 7 / 10

/-- WinklerMaxPrefixLength (the runewise Jaro source). -/
def WinklerMaxPrefixLength : Int := 4

/-- WinklerPrefixScale (the runewise Jaro source). -/
def WinklerPrefixScale : ℚ := 1 / 10

/-- The scan loop of clampedSharedPrefixLength: within the given fuel,
count the leading positions at which the two sequences agree, stopping at
the first mismatch. -/
def spGo : List Nat → List Nat → Nat → Nat
  | x :: xs, y :: ys, n + 1 => if x = y then spGo xs ys n + 1 else 0
  | _, _, _ => 0

/-- clampedSharedPrefixLength (the runewise Jaro source): scan up to
`min(len(a), len(b), maxPrefixLength)` positions - a negative bound runs
the loop zero times - and return the index of the first mismatch. -/
def clampedSharedPrefixLength (a b : List Nat) (maxPrefixLength : Int) : Nat :=
  spGo a b (min3 (a.length : Int) (b.length : Int) maxPrefixLength).toNat

/-- Modelled from the spec: the length of the longest common leading run
of units of the two sequences. -/
def specCommonPrefixLength : List Nat → List Nat → Nat
  | x :: xs, y :: ys => if x = y then specCommonPrefixLength xs ys + 1 else 0
  | _, _ => 0

/-- JaroWinklerSimilarityParametric (the runewise Jaro source): below the
boost threshold the Jaro similarity is returned unchanged, otherwise the
clamped-shared-prefix bonus is added. -/
def JaroWinklerSimilarityParametric (a b : List Nat) (pScale : ℚ)
    (maxPrefixLength : Int) (boostThreshold : ℚ) : Option ℚ :=
  (JaroSimilarity a b).map (fun j =>
    if j < boostThreshold then j
    else j + (clampedSharedPrefixLength a b maxPrefixLength : ℚ) * pScale * (1 - j))

/-- JaroWinklerSimilarity (the runewise Jaro source): the parametric form
at the suggested Winkler constants. -/
def JaroWinklerSimilarity (a b : List Nat) : Option ℚ :=
  JaroWinklerSimilarityParametric a b WinklerPrefixScale WinklerMaxPrefixLength
    WinklerBoostThreshold

end runewise

/-! ## Helper lemmas -/

theorem countDiffs_self : ∀ a : List Nat, countDiffs a a = 0
  | [] => rfl
  | x :: xs => by simp [countDiffs, countDiffs_self xs]

theorem countDiffs_comm : ∀ a b : List Nat, countDiffs a b = countDiffs b a
  | [], [] => rfl
  | [], _ :: _ => rfl
  | _ :: _, [] => rfl
  | x :: xs, y :: ys => by
    simp only [countDiffs, countDiffs_comm xs ys]
    by_cases h : x = y
    · simp [h]
    · have h2 : ¬(y = x) := fun hh => h hh.symm
      simp [h, h2]

theorem countDiffs_eq_filter : ∀ a b : List Nat,
    countDiffs a b = ((a.zip b).filter (fun p => decide (p.1 ≠ p.2))).length
  | [], _ => by simp [countDiffs]
  | _ :: _, [] => by simp [countDiffs]
  | x :: xs, y :: ys => by
    by_cases h : x = y
    · simp [countDiffs, List.filter, h, countDiffs_eq_filter xs ys, List.zip]
    · simp [countDiffs, List.filter, h, countDiffs_eq_filter xs ys, List.zip]
      omega

theorem leeSum_two_eq : ∀ a b : List Nat,
    (a.zip b).all (fun p => decide (p.1 ≤ p.2 + 1 ∧ p.2 ≤ p.1 + 1)) = true →
    stralgo.leeSum 2 a b = (countDiffs a b : Int)
  | [], _, _ => by simp [stralgo.leeSum, countDiffs]
  | _ :: _, [], _ => by simp [stralgo.leeSum, countDiffs]
  | x :: xs, y :: ys, h => by
    simp only [List.zip_cons_cons, List.all_cons, Bool.and_eq_true,
      decide_eq_true_eq] at h
    obtain ⟨⟨h1, h2⟩, hrest⟩ := h
    simp only [stralgo.leeSum, countDiffs, leeSum_two_eq xs ys hrest]
    by_cases hxy : x = y
    · subst hxy
      push_cast
      split_ifs <;> omega
    · have hne : ¬((x : Int) = (y : Int)) := by exact_mod_cast hxy
      push_cast
      split_ifs <;> omega

theorem adjacentPairs_of_short : ∀ a : List Nat, a.length ≤ 1 → adjacentPairs a = []
  | [], _ => rfl
  | [_], _ => rfl
  | _ :: _ :: _, h => by simp at h

/-! ## Hamming distance (claim C8) -/

/-- Claim C8: for all inputs, HammingDistance of a sequence with itself is
ok 0, HammingDistance is symmetric in its two arguments, on equal lengths
it returns ok of the count of indices at which the sequences differ, on
unequal lengths it fails with the length-mismatch error, and the bytewise
form is the same function as the stralgo form. -/
theorem C8_hamming_algebra (a b : List Nat) :
    stralgo.HammingDistance a a = .ok 0 ∧
    stralgo.HammingDistance a b = stralgo.HammingDistance b a ∧
    (a.length = b.length →
      stralgo.HammingDistance a b =
        .ok (((a.zip b).filter (fun p => decide (p.1 ≠ p.2))).length)) ∧
    (a.length ≠ b.length →
      stralgo.HammingDistance a b = .error stralgo.hammingLengthMsg) ∧
    bytewise.HammingDistance a b = stralgo.HammingDistance a b := by
  refine ⟨?_, ?_, ?_, ?_, rfl⟩
  · simp [stralgo.HammingDistance, countDiffs_self]
  · by_cases h : a.length = b.length
    · have h2 : ¬(b.length ≠ a.length) := fun hh => hh h.symm
      simp only [stralgo.HammingDistance, h, h2]
      simp [countDiffs_comm a b]
    · have h2 : b.length ≠ a.length := fun hh => h hh.symm
      simp [stralgo.HammingDistance, h, h2]
  · intro h
    simp [stralgo.HammingDistance, h, countDiffs_eq_filter]
  · intro h
    simp [stralgo.HammingDistance, h]

/-- Witness for C8: the unequal-length hypothesis discharged at a concrete
input. -/
theorem C8_hamming_algebra_witness :
    ([1, 2] : List Nat).length ≠ ([1] : List Nat).length ∧
    stralgo.HammingDistance [1, 2] [1] = .error stralgo.hammingLengthMsg :=
  ⟨by decide, (C8_hamming_algebra [1, 2] [1]).2.2.2.1 (by decide)⟩

/-! ## Lee distance (claim C3) -/

/-- Claim C3 counterexample: at a = "a" (byte 97) and b = "c" (byte 99),
LeeDistance with q = 2 returns ok 0 while HammingDistance returns ok 1, so
LeeDistance at q = 2 is not the same value as HammingDistance: the
circular term min(diff, q - diff) adds q - diff = 0 for bytes two apart. -/
theorem C3_counterexample :
    stralgo.LeeDistance [97] [99] 2 = .ok 0 ∧
    stralgo.HammingDistance [97] [99] = .ok 1 ∧
    stralgo.LeeDistance [97] [99] 2 ≠
      (stralgo.HammingDistance [97] [99]).map (fun n => (n : Int)) :=
  ⟨by decide, by decide, by decide⟩

/-- Claim C3 as amended: LeeDistance fails with the invalid-alphabet-size
error for every q < 2, and for q = 2 it agrees with HammingDistance on
every pair of equal-length sequences whose units differ by at most 1 at
each index. -/
theorem C3_lee_amended (a b : List Nat) (q : Int) :
    (q < 2 → stralgo.LeeDistance a b q = .error stralgo.leeAlphabetMsg) ∧
    (a.length = b.length →
      (a.zip b).all (fun p => decide (p.1 ≤ p.2 + 1 ∧ p.2 ≤ p.1 + 1)) = true →
      stralgo.LeeDistance a b 2 =
        (stralgo.HammingDistance a b).map (fun n => (n : Int))) := by
  constructor
  · intro h
    simp [stralgo.LeeDistance, h]
  · intro hlen hcl
    have h2 : ¬((2 : Int) < 2) := by norm_num
    simp [stralgo.LeeDistance, stralgo.HammingDistance, hlen, h2,
      leeSum_two_eq a b hcl, Except.map]

/-- Witness for C3: both hypotheses discharged at concrete inputs. -/
theorem C3_lee_amended_witness :
    ((0 : Int) < 2 ∧
      stralgo.LeeDistance [48] [49] 0 = .error stralgo.leeAlphabetMsg) ∧
    (([48] : List Nat).length = ([49] : List Nat).length ∧
      stralgo.LeeDistance [48] [49] 2 =
        (stralgo.HammingDistance [48] [49]).map (fun n => (n : Int))) :=
  ⟨⟨by decide, (C3_lee_amended [48] [49] 0).1 (by decide)⟩,
   ⟨by decide, (C3_lee_amended [48] [49] 0).2 (by decide) (by decide)⟩⟩

/-! ## Dice coefficient (claim C7) -/

/-- Claim C7: DiceCoefficient (in both granularity forms) returns an error
exactly when both inputs have length at most 1; whenever at least one
input has length at least 2 both forms return a value with no error; and a
sequence of length 0 or 1 contributes no bigrams. -/
theorem C7_dice_error_exactness (a b : List Nat) :
    ((∃ e, runewise.DiceCoefficient a b = .error e) ↔
      a.length ≤ 1 ∧ b.length ≤ 1) ∧
    ((∃ e, bytewise.DiceCoefficient a b = .error e) ↔
      a.length ≤ 1 ∧ b.length ≤ 1) ∧
    (2 ≤ a.length ∨ 2 ≤ b.length →
      (∃ q, runewise.DiceCoefficient a b = .ok q) ∧
      (∃ q, bytewise.DiceCoefficient a b = .ok q)) ∧
    (a.length ≤ 1 → adjacentPairs a = []) := by
  by_cases hc : (a.length : Int) - 1 < 1 ∧ (b.length : Int) - 1 < 1
  · have hlen : a.length ≤ 1 ∧ b.length ≤ 1 := by omega
    refine ⟨?_, ?_, ?_, fun _ => adjacentPairs_of_short a hlen.1⟩
    · simp [runewise.DiceCoefficient, hc, hlen]
    · simp [bytewise.DiceCoefficient, hc, hlen]
    · intro h
      exact absurd h (by omega)
  · have hlen : ¬(a.length ≤ 1 ∧ b.length ≤ 1) := by omega
    refine ⟨?_, ?_, ?_, fun h => adjacentPairs_of_short a h⟩
    · simp [runewise.DiceCoefficient, hc, hlen]
    · simp [bytewise.DiceCoefficient, hc, hlen]
    · intro _
      exact ⟨⟨_, by unfold runewise.DiceCoefficient; rw [if_neg hc]⟩,
        ⟨_, by unfold bytewise.DiceCoefficient; rw [if_neg hc]⟩⟩

/-- Witness for C7: the at-least-one-long-input hypothesis discharged at a
concrete input. -/
theorem C7_dice_error_exactness_witness :
    (2 ≤ ([110, 105] : List Nat).length ∨ 2 ≤ ([] : List Nat).length) ∧
    ((∃ q, runewise.DiceCoefficient [110, 105] [] = .ok q) ∧
      (∃ q, bytewise.DiceCoefficient [110, 105] [] = .ok q)) :=
  ⟨by decide, (C7_dice_error_exactness [110, 105] []).2.2.1 (by decide)⟩

/-! ## Levenshtein distance (claim C1) -/

/-- Claim C1 (code bug): the bytewise LevenshteinDistance compares a[i]
with b[i] instead of b[j], so on ("abc", "cab") it returns 3 where the
classic dynamic program of the spec (and the runewise form, which compares
a[i] with b[j]) give 2; on ("ab", "a") the bytewise form reads b[2] out of
range and panics.  The runewise form does match the spec on the named
example: LevenshteinDistance("kitten", "sitting") = 3. -/
theorem C1_levenshtein_bytewise_bug :
    bytewise.LevenshteinDistance [97, 98, 99] [99, 97, 98] = some 3 ∧
    runewise.LevenshteinDistance [97, 98, 99] [99, 97, 98] = 2 ∧
    levSpec [97, 98, 99] [99, 97, 98] = 2 ∧
    runewise.LevenshteinDistance [107, 105, 116, 116, 101, 110]
      [115, 105, 116, 116, 105, 110, 103] = 3 ∧
    bytewise.LevenshteinDistance [97, 98] [97] = none := by
  refine ⟨by decide, by decide, by decide, by decide, by decide⟩

/-! ## Damerau-Levenshtein distance (claim C4) -/

/-- Claim C4 (code bug): on two sequences each holding the single unit NUL,
DamerauLevenshteinDistance reads tranRow[-1] (the transposition guard
fires at j = 1 because the uninitialized prevA and prevB sentinels equal
the NUL unit) and panics, in both granularity forms; on NUL-free inputs
of the same shape the scan stays in bounds and returns a value. -/
theorem C4_damerau_nul_panic :
    runewise.DamerauLevenshteinDistance [0] [0] = none ∧
    bytewise.DamerauLevenshteinDistance [0] [0] = none ∧
    runewise.DamerauLevenshteinDistance [97] [97] = some 0 ∧
    runewise.DamerauLevenshteinDistance [97, 98] [98, 97] = some 1 :=
  ⟨by decide, by decide, by decide, by decide⟩

/-! ## Jaro similarity (claim C6) -/

/-- Claim C6 (code bug): on a = "xzzz" and b = "xxww" the window scan marks
both of the b-positions holding x while only one unit of a is matched, so
the bIndices fill loop writes past the end of its length-1 array and
panics: JaroSimilarity does fail on non-degenerate inputs.  On the same
shapes the function does return 0 for an empty side and 1 for a non-empty
sequence compared with itself. -/
theorem C6_jaro_fill_panic :
    runewise.JaroSimilarity [120, 122, 122, 122] [120, 120, 119, 119] = none ∧
    runewise.jaroMatchesAndHalfTranspositions [120, 122, 122, 122]
      [120, 120, 119, 119] = none ∧
    runewise.JaroSimilarity [] [120] = some 0 ∧
    runewise.JaroSimilarity [97] [97] = some 1 := by
  have hm0 : runewise.jaroMatchesAndHalfTranspositions [] [120] = some (0, 0) := by
    decide
  have hm1 : runewise.jaroMatchesAndHalfTranspositions [97] [97] = some (1, 0) := by
    decide
  refine ⟨by decide, by decide, ?_, ?_⟩
  · simp [runewise.JaroSimilarity, hm0]
  · simp only [runewise.JaroSimilarity, hm1, Option.map_some']
    norm_num

/-! ## White similarity ratio (claim C2) -/

/-- Claim C2 (code bug): on the rune sequences (NUL, NUL, NUL) and
(NUL, NUL), both accepted (three non-whitespace bigrams in total),
WhiteSimilarity returns 4/3 > 1: a consumed slot of the b-list is
overwritten with the zero bigram, which a (NUL, NUL) bigram of the a-list
matches again, so the matching is not one-to-one and the ratio leaves
[0, 1]. -/
theorem C2_white_ratio_exceeds_one :
    runewise.WhiteSimilarity [0, 0, 0] [0, 0] = .ok (4 / 3) ∧
    greedyIntersectionCount (runewise.upperWordLetterPairs [0, 0, 0])
      (runewise.upperWordLetterPairs [0, 0]) = 2 ∧
    (1 : ℚ) < 4 / 3 := by
  have ha : runewise.upperWordLetterPairs [0, 0, 0] = [(0, 0), (0, 0)] := by
    decide
  have hb : runewise.upperWordLetterPairs [0, 0] = [(0, 0)] := by decide
  have hg : greedyIntersectionCount [(0, 0), (0, 0)] [(0, 0)] = 2 := by decide
  refine ⟨?_, by rw [ha, hb, hg], by norm_num⟩
  simp only [runewise.WhiteSimilarity, ha, hb, hg, List.length_cons,
    List.length_nil]
  norm_num [Except.ok.injEq]

/-! ## White similarity case-insensitivity (claim C9) -/

theorem goIsSpace_goToUpper (x : Nat) : goIsSpace (goToUpper x) = goIsSpace x := by
  unfold goToUpper goIsSpace
  split_ifs with h
  · simp only [decide_eq_decide]
    omega
  · rfl

theorem goToUpper_goToUpper (x : Nat) : goToUpper (goToUpper x) = goToUpper x := by
  unfold goToUpper
  split_ifs <;> omega

theorem upperWordLetterPairs_map_goToUpper : ∀ l : List Nat,
    runewise.upperWordLetterPairs (l.map goToUpper) =
      runewise.upperWordLetterPairs l
  | [] => rfl
  | [_] => rfl
  | x :: y :: rest => by
    have h2 := upperWordLetterPairs_map_goToUpper (y :: rest)
    simp only [List.map_cons] at h2 ⊢
    simp only [runewise.upperWordLetterPairs, goIsSpace_goToUpper,
      goToUpper_goToUpper, h2, upperWordLetterPairs_map_goToUpper rest]

theorem asciiUpperOrSpace_stable (x : Nat) :
    bytewise.asciiUpperOrSpace ((bytewise.asciiUpperOrSpace x).1) =
      bytewise.asciiUpperOrSpace x := by
  by_cases h1 : x ≤ 127
  · by_cases h2 : 97 ≤ x ∧ x ≤ 122
    · have hv : (bytewise.asciiUpperOrSpace x).1 = x - 32 := by
        simp [bytewise.asciiUpperOrSpace, h1, h2]
      rw [hv]
      unfold bytewise.asciiUpperOrSpace
      rw [if_pos (by omega : x - 32 ≤ 127), if_neg (by omega), if_neg (by omega),
        if_pos h1, if_pos h2]
    · have hv : (bytewise.asciiUpperOrSpace x).1 = x := by
        unfold bytewise.asciiUpperOrSpace
        rw [if_pos h1, if_neg h2]
        split_ifs <;> rfl
      rw [hv]
  · have hv : (bytewise.asciiUpperOrSpace x).1 = x := by
      simp [bytewise.asciiUpperOrSpace, h1]
    rw [hv]

theorem asciiPairs_map_upper : ∀ l : List Nat,
    bytewise.asciiUpperWordLetterPairs
        (l.map (fun x => (bytewise.asciiUpperOrSpace x).1)) =
      bytewise.asciiUpperWordLetterPairs l
  | [] => rfl
  | [_] => rfl
  | x :: y :: rest => by
    have h2 := asciiPairs_map_upper (y :: rest)
    simp only [List.map_cons] at h2 ⊢
    simp only [bytewise.asciiUpperWordLetterPairs, asciiUpperOrSpace_stable,
      h2, asciiPairs_map_upper rest]

/-- Claim C9: WhiteSimilarity is case-insensitive.  Concretely, on
"Healed " and "HEALed" both granularity forms return exactly 1 (the
trailing whitespace bigram is discarded); in general, replacing either
input by its unit-wise upper-casing (through the respective upper-case
primitive of each form) leaves the result unchanged, because the filtered
bigram lists are already built from upper-cased units. -/
theorem C9_white_case_insensitive :
    bytewise.WhiteSimilarity [72, 101, 97, 108, 101, 100, 32]
      [72, 69, 65, 76, 101, 100] = .ok 1 ∧
    runewise.WhiteSimilarity [72, 101, 97, 108, 101, 100, 32]
      [72, 69, 65, 76, 101, 100] = .ok 1 ∧
    (∀ a b : List Nat,
      runewise.WhiteSimilarity (a.map goToUpper) b =
        runewise.WhiteSimilarity a b ∧
      runewise.WhiteSimilarity a (b.map goToUpper) =
        runewise.WhiteSimilarity a b) ∧
    (∀ a b : List Nat,
      bytewise.WhiteSimilarity
          (a.map (fun x => (bytewise.asciiUpperOrSpace x).1)) b =
        bytewise.WhiteSimilarity a b ∧
      bytewise.WhiteSimilarity a
          (b.map (fun x => (bytewise.asciiUpperOrSpace x).1)) =
        bytewise.WhiteSimilarity a b) := by
  refine ⟨?_, ?_, ?_, ?_⟩
  · have ha : bytewise.asciiUpperWordLetterPairs [72, 101, 97, 108, 101, 100, 32] =
        [(72, 69), (69, 65), (65, 76), (76, 69), (69, 68)] := by decide
    have hb : bytewise.asciiUpperWordLetterPairs [72, 69, 65, 76, 101, 100] =
        [(72, 69), (69, 65), (65, 76), (76, 69), (69, 68)] := by decide
    have hg : greedyIntersectionCount
        [(72, 69), (69, 65), (65, 76), (76, 69), (69, 68)]
        [(72, 69), (69, 65), (65, 76), (76, 69), (69, 68)] = 5 := by decide
    simp only [bytewise.WhiteSimilarity, ha, hb, hg, List.length_cons,
      List.length_nil]
    norm_num [Except.ok.injEq]
  · have ha : runewise.upperWordLetterPairs [72, 101, 97, 108, 101, 100, 32] =
        [(72, 69), (69, 65), (65, 76), (76, 69), (69, 68)] := by decide
    have hb : runewise.upperWordLetterPairs [72, 69, 65, 76, 101, 100] =
        [(72, 69), (69, 65), (65, 76), (76, 69), (69, 68)] := by decide
    have hg : greedyIntersectionCount
        [(72, 69), (69, 65), (65, 76), (76, 69), (69, 68)]
        [(72, 69), (69, 65), (65, 76), (76, 69), (69, 68)] = 5 := by decide
    simp only [runewise.WhiteSimilarity, ha, hb, hg, List.length_cons,
      List.length_nil]
    norm_num [Except.ok.injEq]
  · intro a b
    constructor <;>
      simp only [runewise.WhiteSimilarity, upperWordLetterPairs_map_goToUpper]
  · intro a b
    constructor <;>
      simp only [bytewise.WhiteSimilarity, asciiPairs_map_upper]

/-! ## Jaro-Winkler parametric formula (claim C5) -/

theorem spGo_eq_min : ∀ (a b : List Nat) (n : Nat),
    runewise.spGo a b n = min (runewise.specCommonPrefixLength a b) n
  | [], _, _ => by simp [runewise.spGo, runewise.specCommonPrefixLength]
  | _ :: _, [], _ => by simp [runewise.spGo, runewise.specCommonPrefixLength]
  | _ :: _, _ :: _, 0 => by simp [runewise.spGo]
  | x :: xs, y :: ys, n + 1 => by
    by_cases h : x = y
    · simp only [runewise.spGo, runewise.specCommonPrefixLength, h, if_pos,
        spGo_eq_min xs ys n]
      omega
    · simp [runewise.spGo, runewise.specCommonPrefixLength, h]

theorem specCommonPrefixLength_le : ∀ a b : List Nat,
    runewise.specCommonPrefixLength a b ≤ a.length ∧
      runewise.specCommonPrefixLength a b ≤ b.length
  | [], _ => by simp [runewise.specCommonPrefixLength]
  | _ :: _, [] => by simp [runewise.specCommonPrefixLength]
  | x :: xs, y :: ys => by
    have h2 := specCommonPrefixLength_le xs ys
    by_cases h : x = y
    · simp only [runewise.specCommonPrefixLength, h, if_pos, List.length_cons]
      omega
    · simp [runewise.specCommonPrefixLength, h]

theorem min3_eq_min (x y z : Int) : min3 x y z = min (min x y) z := by
  simp only [min3]
  split_ifs <;> omega

theorem clampedSharedPrefixLength_eq (a b : List Nat) (m : Int) (hm : 0 ≤ m) :
    runewise.clampedSharedPrefixLength a b m =
      min (runewise.specCommonPrefixLength a b) m.toNat := by
  unfold runewise.clampedSharedPrefixLength
  rw [spGo_eq_min, min3_eq_min]
  have h1 := (specCommonPrefixLength_le a b).1
  have h2 := (specCommonPrefixLength_le a b).2
  omega

/-- Claim C5 as amended: for every pair of inputs and every parameter
triple whose maxPrefixLength is non-negative,
JaroWinklerSimilarityParametric returns (panicking exactly when
JaroSimilarity panics) the Jaro similarity j unchanged when
j < boostThreshold and otherwise
j + min(commonPrefixLength, maxPrefixLength) * prefixScale * (1 - j),
where commonPrefixLength is the length of the longest common leading run;
and JaroWinklerSimilarity is the parametric form at prefixScale = 0.1,
maxPrefixLength = 4, boostThreshold = 0.7. -/
theorem C5_jaro_winkler_amended (a b : List Nat) (s : ℚ) (m : Int) (t : ℚ)
    (hm : 0 ≤ m) :
    runewise.JaroWinklerSimilarityParametric a b s m t =
      (runewise.JaroSimilarity a b).map (fun j =>
        if j < t then j
        else j + ((min ((runewise.specCommonPrefixLength a b : Int)) m : Int) : ℚ) *
          s * (1 - j)) ∧
    runewise.JaroWinklerSimilarity a b =
      runewise.JaroWinklerSimilarityParametric a b (1 / 10) 4 (7 / 10) := by
  constructor
  · have hcast : ((runewise.clampedSharedPrefixLength a b m : Nat) : ℚ) =
        ((min ((runewise.specCommonPrefixLength a b : Int)) m : Int) : ℚ) := by
      rw [clampedSharedPrefixLength_eq a b m hm]
      have hgoal : ((min (runewise.specCommonPrefixLength a b) m.toNat : Nat) : Int) =
          min ((runewise.specCommonPrefixLength a b : Int)) m := by omega
      exact_mod_cast hgoal
    have hfun : (fun j : ℚ => if j < t then j
          else j + ((runewise.clampedSharedPrefixLength a b m : Nat) : ℚ) * s * (1 - j)) =
        (fun j : ℚ => if j < t then j
          else j + ((min ((runewise.specCommonPrefixLength a b : Int)) m : Int) : ℚ) *
            s * (1 - j)) := by
      funext j
      rw [hcast]
    unfold runewise.JaroWinklerSimilarityParametric
    rw [hfun]
  · rfl

/-- Witness for C5: the non-negativity hypothesis discharged at a concrete
input. -/
theorem C5_jaro_winkler_amended_witness :
    (0 : Int) ≤ 4 ∧
    (runewise.JaroWinklerSimilarityParametric [97] [97] (1 / 10) 4 (7 / 10) =
      (runewise.JaroSimilarity [97] [97]).map (fun j =>
        if j < (7 / 10 : ℚ) then j
        else j + ((min ((runewise.specCommonPrefixLength [97] [97] : Int)) 4 : Int) : ℚ) *
          (1 / 10) * (1 - j)) ∧
    runewise.JaroWinklerSimilarity [97] [97] =
      runewise.JaroWinklerSimilarityParametric [97] [97] (1 / 10) 4 (7 / 10)) :=
  ⟨by decide, C5_jaro_winkler_amended [97] [97] (1 / 10) 4 (7 / 10) (by decide)⟩

/-- Claim C5 counterexample: at maxPrefixLength = -1 (with prefixScale 1
and boostThreshold 0, on inputs "ab" and "ac" whose Jaro similarity is
2/3), the code adds no bonus (the clamped scan runs zero steps) while the
claimed formula adds min(commonPrefixLength, maxPrefixLength) = -1 times
the scale, so the claim fails for this parameter triple. -/
theorem C5_counterexample :
    runewise.JaroWinklerSimilarityParametric [97, 98] [97, 99] 1 (-1) 0 ≠
      (runewise.JaroSimilarity [97, 98] [97, 99]).map (fun j =>
        if j < (0 : ℚ) then j
        else j + ((min ((runewise.specCommonPrefixLength [97, 98] [97, 99] : Int))
          (-1) : Int) : ℚ) * 1 * (1 - j)) := by
  have hm : runewise.jaroMatchesAndHalfTranspositions [97, 98] [97, 99] =
      some (1, 0) := by decide
  have hJ : runewise.JaroSimilarity [97, 98] [97, 99] = some (2 / 3) := by
    simp only [runewise.JaroSimilarity, hm, Option.map_some']
    norm_num
  have hc : runewise.clampedSharedPrefixLength [97, 98] [97, 99] (-1) = 0 := by
    decide
  have hcp : runewise.specCommonPrefixLength [97, 98] [97, 99] = 1 := by decide
  have hmin : (min (1 : Int) (-1)) = -1 := by decide
  simp only [runewise.JaroWinklerSimilarityParametric, hJ, hc, hcp, hmin,
    Option.map_some', ne_eq, Option.some.injEq]
  norm_num
